import Mathlib

/-!
# Verification of the etC2 sync-orchestration engine

Shallow embedding, in Lean 4, of the parts of the `execution/` Python
package that the specification's claims are about:

* `rate_limiter.py` — per-tenant/per-platform daily rate budgeting
  (`_per_user_budget`, `can_make_request`, `record_request`,
  `_reset_if_new_day`);
* `retry.py` — `retry_request` / `_calculate_delay`;
* `etsy_sync_orders.py` — the orders-cursor fold and `_to_cents`;
* `printify_sync_orders.py` — the orders-cursor fold and
  `_map_printify_status`;
* `modal_app.py` — `_schedule_next`;
* `token_manager.py` — `is_token_expired`, `refresh_etsy_token`,
  `refresh_shopify_token`.

Modelling conventions:

* Python dicts (`defaultdict(int)`) become insertion-ordered association
  lists `List (key x Nat)`: a `defaultdict` read inserts a 0-valued
  entry at the end when the key is absent, which matters to
  `_reset_if_new_day`'s sample-key check (`next(iter(d))` reads the
  oldest inserted key).
* Python float arithmetic in the budget formula
  (`int((budget / count) * 0.8)`) is modelled as exact rational
  arithmetic; for the integer magnitudes involved the float computation
  agrees with the exact one, and the claims themselves are stated in
  terms of the exact floor.
* Falsiness of Python values (`None`, `0`, `""`) is modelled explicitly
  by `truthy` predicates on `Option` values.
* Fallible code returns `Except`; the caught-exception branches of the
  source become the corresponding error constructors.
* Wall-clock datetimes are modelled as integer seconds since the epoch;
  `isoformat`/`fromisoformat` round-tripping inside one function is the
  identity on that representation.
-/

namespace Etc2

/-! ## Association-list primitives (Python `dict` / `defaultdict(int)`) -/

/-- Read of a Python `defaultdict(int)` at key `k`: value of the first
(and, for well-formed states, only) entry with that key, default `0`.
The insertion side effect of the read is modelled by `touch`. -/
def alookup {α : Type} [DecidableEq α] (l : List (α × Nat)) (k : α) : Nat :=
  match l.find? (fun e => decide (e.1 = k)) with
  | some e => e.2
  | none => 0

/-- Read with an explicit default, Python's `d.get(k, default)`
(no insertion side effect). -/
def alookupD {α : Type} [DecidableEq α] (l : List (α × Nat)) (k : α) (default : Nat) : Nat :=
  match l.find? (fun e => decide (e.1 = k)) with
  | some e => e.2
  | none => default

/-- The insertion side effect of reading a missing key from a
`defaultdict(int)`: append a `0`-valued entry at the end iff absent. -/
def touch {α : Type} [DecidableEq α] (l : List (α × Nat)) (k : α) : List (α × Nat) :=
  if l.any (fun e => decide (e.1 = k)) then l else l ++ [(k, 0)]

/-- `d[k] += n` on a `defaultdict(int)`: update in place when present,
else append `(k, n)` at the end. -/
def bump {α : Type} [DecidableEq α] (l : List (α × Nat)) (k : α) (n : Nat) : List (α × Nat) :=
  if l.any (fun e => decide (e.1 = k)) then
    l.map (fun e => if e.1 = k then (e.1, e.2 + n) else e)
  else l ++ [(k, n)]

theorem alookup_nil {α : Type} [DecidableEq α] (k : α) :
    alookup ([] : List (α × Nat)) k = 0 := rfl

theorem alookup_cons {α : Type} [DecidableEq α] (e : α × Nat) (l : List (α × Nat)) (k : α) :
    alookup (e :: l) k = if e.1 = k then e.2 else alookup l k := by
  by_cases h : e.1 = k
  · unfold alookup
    rw [List.find?_cons_of_pos _ (by simpa using h)]
    simp [h]
  · unfold alookup
    rw [List.find?_cons_of_neg _ (by simpa using h)]
    simp [h]

theorem alookup_touch {α : Type} [DecidableEq α] (l : List (α × Nat)) (k k' : α) :
    alookup (touch l k) k' = alookup l k' := by
  unfold touch
  split
  · rfl
  · unfold alookup
    rw [List.find?_append]
    cases hfind : l.find? (fun e => decide (e.1 = k')) with
    | some e => simp [hfind]
    | none =>
      by_cases hk : k = k'
      · subst hk
        simp [List.find?]
      · simp [List.find?, hk]

/-- Updating the entries of key `k` (the present-key branch of `bump`)
adds `n` to the looked-up value of `k`, provided `k` occurs. -/
theorem alookup_map_update_self {α : Type} [DecidableEq α]
    (l : List (α × Nat)) (k : α) (n : Nat)
    (hany : l.any (fun e => decide (e.1 = k)) = true) :
    alookup (l.map (fun e => if e.1 = k then (e.1, e.2 + n) else e)) k
      = alookup l k + n := by
  induction l with
  | nil => simp at hany
  | cons e rest ih =>
    by_cases hek : e.1 = k
    · simp [alookup_cons, hek]
    · have hrest : rest.any (fun e => decide (e.1 = k)) = true := by
        simpa [List.any_cons, hek] using hany
      simp [alookup_cons, hek, ih hrest]

/-- Updating the entries of key `k` leaves every other key's value alone. -/
theorem alookup_map_update_ne {α : Type} [DecidableEq α]
    (l : List (α × Nat)) (k k' : α) (n : Nat) (hne : ¬ (k' = k)) :
    alookup (l.map (fun e => if e.1 = k then (e.1, e.2 + n) else e)) k'
      = alookup l k' := by
  induction l with
  | nil => simp [alookup]
  | cons e rest ih =>
    by_cases he : e.1 = k'
    · have hek : ¬ (e.1 = k) := fun h => hne (by rw [← he, h])
      rw [List.map_cons, if_neg hek, alookup_cons, alookup_cons, if_pos he, if_pos he]
    · by_cases hek : e.1 = k
      · rw [List.map_cons, if_pos hek, alookup_cons, alookup_cons,
          if_neg (show ¬ ((e.1, e.2 + n).1 = k') from he), if_neg he, ih]
      · rw [List.map_cons, if_neg hek, alookup_cons, alookup_cons,
          if_neg he, if_neg he, ih]

theorem alookup_bump {α : Type} [DecidableEq α] (l : List (α × Nat)) (k k' : α) (n : Nat) :
    alookup (bump l k n) k' = alookup l k' + (if k' = k then n else 0) := by
  unfold bump
  split
  · rename_i hany
    by_cases hk : k' = k
    · subst hk
      simp [alookup_map_update_self l k' n hany]
    · simp [alookup_map_update_ne l k k' n hk, hk]
  · rename_i hany
    unfold alookup
    rw [List.find?_append]
    cases hfind : l.find? (fun e => decide (e.1 = k')) with
    | some e =>
      have hne : ¬ (k' = k) := by
        intro hkk
        subst hkk
        have hnone : l.find? (fun e => decide (e.1 = k')) = none := by
          rw [List.find?_eq_none]
          intro x hx
          simp only [decide_eq_true_eq]
          intro hxk
          exact hany (List.any_eq_true.mpr ⟨x, hx, by simp [hxk]⟩)
        rw [hnone] at hfind
        exact Option.noConfusion hfind
      simp [hfind, hne]
    | none =>
      by_cases hk : k' = k
      · subst hk
        simp [List.find?]
      · have hk' : ¬ (k = k') := fun h => hk h.symm
        simp [List.find?, hk, hk']

/-! ## `rate_limiter.py`

State of the module: `_daily_usage : defaultdict` keyed by
`(date, platform, user_id)`, `_global_usage : defaultdict` keyed by
`(date, platform)`, and `_active_users` keyed by platform.  The
`PLATFORM_BUDGETS` module dict is passed explicitly (tests patch it),
with the source default `{etsy: 10000, shopify: 80}`. -/

/-- Key of `_daily_usage`: `(date, platform, user_id)`. -/
abbrev DKey := String × String × String

/-- Key of `_global_usage`: `(date, platform)`. -/
abbrev GKey := String × String

/-- The in-memory module state of `rate_limiter.py`. -/
structure RLState where
  dailyUsage : List (DKey × Nat)
  globalUsage : List (GKey × Nat)
  activeUsers : List (String × Nat)
deriving DecidableEq

/-- `PLATFORM_BUDGETS` as written in the source. -/
def PLATFORM_BUDGETS : List (String × Nat) := [("etsy", 10000), ("shopify", 80)]

/-- `_per_user_budget`: `int((PLATFORM_BUDGETS.get(platform, 10_000) /
max(_active_users.get(platform, 1), 1)) * SAFETY_FACTOR)` with
`SAFETY_FACTOR = 0.8`, i.e. the floor of the exact rational
`(budget / count) * 4/5`, which is `(budget * 4) / (count * 5)` in
natural-number division. -/
def per_user_budget (budgets : List (String × Nat)) (active : List (String × Nat))
    (platform : String) : Nat :=
  let global_budget := alookupD budgets platform 10000
  let user_count := max (alookupD active platform 1) 1
  (global_budget * 4) / (user_count * 5)

/-- `_reset_if_new_day`: if `_daily_usage` is non-empty and its oldest
key (Python `next(iter(d))` on an insertion-ordered dict) has a date
different from today, clear both usage dicts. -/
def reset_if_new_day (today : String) (st : RLState) : RLState :=
  match st.dailyUsage with
  | [] => st
  | (k, _) :: _ =>
    if k.1 ≠ today then { st with dailyUsage := [], globalUsage := [] } else st

/-- `can_make_request(user_id, platform)`.  Returns the decision and the
post-state: the two `defaultdict` reads insert `0`-valued entries
(`touch`).  The decision is `False` when `global_used >= global_budget`,
`False` when `user_used >= _per_user_budget(platform)`, else `True`. -/
def can_make_request (budgets : List (String × Nat)) (today user platform : String)
    (st : RLState) : Bool × RLState :=
  let global_budget := alookupD budgets platform 10000
  let st1 := reset_if_new_day today st
  let st2 := { st1 with
    dailyUsage := touch st1.dailyUsage (today, platform, user),
    globalUsage := touch st1.globalUsage (today, platform) }
  let user_used := alookup st2.dailyUsage (today, platform, user)
  let global_used := alookup st2.globalUsage (today, platform)
  let ok :=
    if global_used ≥ global_budget then false
    else if user_used ≥ per_user_budget budgets st2.activeUsers platform then false
    else true
  (ok, st2)

/-- `record_request(user_id, platform, count)` (source default
`count = 1`): bump both counters by `count`. -/
def record_request (today user platform : String) (count : Nat) (st : RLState) : RLState :=
  let st1 := reset_if_new_day today st
  { st1 with
    dailyUsage := bump st1.dailyUsage (today, platform, user) count,
    globalUsage := bump st1.globalUsage (today, platform) count }

/-- A client-visible operation on the rate-limiter state: a
`record_request` call or a `can_make_request` query (each performed on
the UTC date current at call time). -/
inductive RLOp where
  | record (today user platform : String) (count : Nat)
  | query (today user platform : String)
deriving DecidableEq

/-- Apply one operation to the state. -/
def applyOp (budgets : List (String × Nat)) (st : RLState) : RLOp → RLState
  | .record today user platform count => record_request today user platform count st
  | .query today user platform => (can_make_request budgets today user platform st).2

/-- Run a sequence of operations from a starting state. -/
def runOps (budgets : List (String × Nat)) (st : RLState) (ops : List RLOp) : RLState :=
  ops.foldl (applyOp budgets) st

/-- The empty-counter starting state (module import time), with a given
`_active_users` table. -/
def initState (active : List (String × Nat)) : RLState := ⟨[], [], active⟩

/-- Sum of the per-tenant daily counters of one `(date, platform)` pair
over all tenants. -/
def sumDaily (l : List (DKey × Nat)) (d p : String) : Nat :=
  ((l.filter (fun e => decide (e.1.1 = d ∧ e.1.2.1 = p))).map (fun e => e.2)).sum

theorem sumDaily_touch (l : List (DKey × Nat)) (k : DKey) (d p : String) :
    sumDaily (touch l k) d p = sumDaily l d p := by
  unfold touch
  split
  · rfl
  · unfold sumDaily
    by_cases hc : (k.1 = d ∧ k.2.1 = p)
    · simp [List.filter_append, List.filter_cons, hc]
    · simp [List.filter_append, List.filter_cons, hc]

/-- If no entry has key `k`, updating key `k` is the identity. -/
theorem map_update_id {α : Type} [DecidableEq α] (l : List (α × Nat)) (k : α) (n : Nat)
    (h : ∀ e ∈ l, ¬ (e.1 = k)) :
    l.map (fun e => if e.1 = k then (e.1, e.2 + n) else e) = l := by
  have hcg := List.map_congr_left (l := l)
    (f := fun e => if e.1 = k then (e.1, e.2 + n) else e) (g := fun e => e)
    (fun e he => if_neg (h e he))
  rw [hcg]
  simp

/-- Present-key `bump`, key inside the `(d, p)` group: the group sum
grows by `n`, provided keys are unique. -/
theorem sumDaily_map_update_mem (l : List (DKey × Nat)) (k : DKey) (n : Nat) (d p : String)
    (hnd : (l.map Prod.fst).Nodup)
    (hany : l.any (fun e => decide (e.1 = k)) = true)
    (hc : k.1 = d ∧ k.2.1 = p) :
    sumDaily (l.map (fun e => if e.1 = k then (e.1, e.2 + n) else e)) d p
      = sumDaily l d p + n := by
  induction l with
  | nil => simp at hany
  | cons e rest ih =>
    rw [List.map_cons, List.nodup_cons] at hnd
    by_cases hek : e.1 = k
    · have hrest : rest.map (fun e => if e.1 = k then (e.1, e.2 + n) else e) = rest := by
        apply map_update_id
        intro e' he' hk'
        exact hnd.1 (by rw [← hek] at hk'; exact hk' ▸ List.mem_map_of_mem Prod.fst he')
      rw [List.map_cons, if_pos hek, hrest]
      unfold sumDaily
      rw [List.filter_cons_of_pos (by simp [hek, hc.1, hc.2]),
        List.filter_cons_of_pos (by simp [hek, hc.1, hc.2]),
        List.map_cons, List.map_cons, List.sum_cons, List.sum_cons]
      omega
    · have hrest : rest.any (fun e => decide (e.1 = k)) = true := by
        simpa [List.any_cons, hek] using hany
      have hmain := ih hnd.2 hrest
      rw [List.map_cons, if_neg hek]
      unfold sumDaily at hmain ⊢
      by_cases hce : (e.1.1 = d ∧ e.1.2.1 = p)
      · rw [List.filter_cons_of_pos (by simp [hce.1, hce.2]),
          List.filter_cons_of_pos (by simp [hce.1, hce.2]),
          List.map_cons, List.map_cons, List.sum_cons, List.sum_cons]
        omega
      · rw [List.filter_cons_of_neg (by simp [hce]),
          List.filter_cons_of_neg (by simp [hce])]
        exact hmain

/-- Present-key `bump`, key outside the `(d, p)` group: the group sum
is unchanged (the updated entries are filtered out anyway). -/
theorem sumDaily_map_update_notmem (l : List (DKey × Nat)) (k : DKey) (n : Nat) (d p : String)
    (hc : ¬ (k.1 = d ∧ k.2.1 = p)) :
    sumDaily (l.map (fun e => if e.1 = k then (e.1, e.2 + n) else e)) d p
      = sumDaily l d p := by
  induction l with
  | nil => rfl
  | cons e rest ih =>
    by_cases hek : e.1 = k
    · have h1 : ¬ (e.1.1 = d ∧ e.1.2.1 = p) := by rw [hek]; exact hc
      rw [List.map_cons, if_pos hek]
      unfold sumDaily at ih ⊢
      rw [List.filter_cons_of_neg (by simpa using h1),
        List.filter_cons_of_neg (by simpa using h1)]
      exact ih
    · rw [List.map_cons, if_neg hek]
      unfold sumDaily at ih ⊢
      by_cases hce : (e.1.1 = d ∧ e.1.2.1 = p)
      · rw [List.filter_cons_of_pos (by simp [hce.1, hce.2]),
          List.filter_cons_of_pos (by simp [hce.1, hce.2]),
          List.map_cons, List.map_cons, List.sum_cons, List.sum_cons]
        omega
      · rw [List.filter_cons_of_neg (by simp [hce]),
          List.filter_cons_of_neg (by simp [hce])]
        exact ih

theorem sumDaily_bump (l : List (DKey × Nat)) (k : DKey) (n : Nat) (d p : String)
    (hnd : (l.map Prod.fst).Nodup) :
    sumDaily (bump l k n) d p
      = sumDaily l d p + (if k.1 = d ∧ k.2.1 = p then n else 0) := by
  unfold bump
  split
  · rename_i hany
    by_cases hc : (k.1 = d ∧ k.2.1 = p)
    · rw [if_pos hc, sumDaily_map_update_mem l k n d p hnd hany hc]
    · rw [if_neg hc, Nat.add_zero, sumDaily_map_update_notmem l k n d p hc]
  · unfold sumDaily
    by_cases hc : (k.1 = d ∧ k.2.1 = p)
    · simp [List.filter_append, List.filter_cons, hc]
    · simp [List.filter_append, List.filter_cons, hc]

theorem nodup_keys_touch {α : Type} [DecidableEq α] (l : List (α × Nat)) (k : α)
    (h : (l.map Prod.fst).Nodup) : ((touch l k).map Prod.fst).Nodup := by
  unfold touch
  split
  · exact h
  · rename_i hany
    rw [List.map_append]
    apply List.Nodup.append h (by simp)
    intro a ha hb
    simp only [List.map_cons, List.map_nil, List.mem_singleton] at hb
    subst hb
    rcases List.mem_map.mp ha with ⟨e, he, hk⟩
    exact hany (List.any_eq_true.mpr ⟨e, he, by simp [hk]⟩)

theorem nodup_keys_bump {α : Type} [DecidableEq α] (l : List (α × Nat)) (k : α) (n : Nat)
    (h : (l.map Prod.fst).Nodup) : ((bump l k n).map Prod.fst).Nodup := by
  unfold bump
  split
  · rw [List.map_map]
    have hcg : l.map (Prod.fst ∘ fun e => if e.1 = k then (e.1, e.2 + n) else e)
        = l.map Prod.fst := by
      apply List.map_congr_left
      intro e _
      by_cases hek : e.1 = k <;> simp [hek]
    rw [hcg]
    exact h
  · rename_i hany
    rw [List.map_append]
    apply List.Nodup.append h (by simp)
    intro a ha hb
    simp only [List.map_cons, List.map_nil, List.mem_singleton] at hb
    subst hb
    rcases List.mem_map.mp ha with ⟨e, he, hk⟩
    exact hany (List.any_eq_true.mpr ⟨e, he, by simp [hk]⟩)

theorem touch_ne_nil {α : Type} [DecidableEq α] (l : List (α × Nat)) (k : α) :
    touch l k ≠ [] := by
  unfold touch
  split
  · rename_i hany
    intro hnil
    subst hnil
    simp at hany
  · simp

theorem bump_ne_nil {α : Type} [DecidableEq α] (l : List (α × Nat)) (k : α) (n : Nat) :
    bump l k n ≠ [] := by
  unfold bump
  split
  · rename_i hany
    intro hnil
    rw [List.map_eq_nil_iff] at hnil
    subst hnil
    simp at hany
  · simp

/-- Well-formedness: the usage dicts have unique keys (true of any
Python dict by construction). -/
def WF (st : RLState) : Prop :=
  (st.dailyUsage.map Prod.fst).Nodup ∧ (st.globalUsage.map Prod.fst).Nodup

/-- The claimed ledger invariant: for every `(date, platform)`, the sum
of per-tenant counters equals the global counter. -/
def SumInv (st : RLState) : Prop :=
  ∀ d p, sumDaily st.dailyUsage d p = alookup st.globalUsage (d, p)

theorem reset_activeUsers (today : String) (st : RLState) :
    (reset_if_new_day today st).activeUsers = st.activeUsers := by
  unfold reset_if_new_day
  split
  · rfl
  · split <;> rfl

theorem WF_reset (today : String) (st : RLState) (h : WF st) :
    WF (reset_if_new_day today st) := by
  unfold reset_if_new_day
  split
  · exact h
  · split
    · exact ⟨by simp, by simp⟩
    · exact h

theorem SumInv_reset (today : String) (st : RLState) (h : SumInv st) :
    SumInv (reset_if_new_day today st) := by
  unfold reset_if_new_day
  split
  · exact h
  · split
    · intro d p
      rfl
    · exact h

theorem can_make_request_snd (budgets : List (String × Nat)) (today user platform : String)
    (st : RLState) :
    (can_make_request budgets today user platform st).2
      = { reset_if_new_day today st with
          dailyUsage := touch (reset_if_new_day today st).dailyUsage (today, platform, user),
          globalUsage := touch (reset_if_new_day today st).globalUsage (today, platform) } := rfl

theorem WF_applyOp (budgets : List (String × Nat)) (st : RLState) (op : RLOp)
    (h : WF st) : WF (applyOp budgets st op) := by
  cases op with
  | record today user platform count =>
    have h1 := WF_reset today st h
    exact ⟨nodup_keys_bump _ _ _ h1.1, nodup_keys_bump _ _ _ h1.2⟩
  | query today user platform =>
    have h1 := WF_reset today st h
    exact ⟨nodup_keys_touch _ _ h1.1, nodup_keys_touch _ _ h1.2⟩

theorem SumInv_applyOp (budgets : List (String × Nat)) (st : RLState) (op : RLOp)
    (hw : WF st) (h : SumInv st) : SumInv (applyOp budgets st op) := by
  cases op with
  | record today user platform count =>
    intro d p
    have h1 := SumInv_reset today st h
    have hw1 := WF_reset today st hw
    show sumDaily (bump (reset_if_new_day today st).dailyUsage (today, platform, user) count) d p
      = alookup (bump (reset_if_new_day today st).globalUsage (today, platform) count) (d, p)
    rw [sumDaily_bump _ _ _ _ _ hw1.1, alookup_bump, h1 d p]
    by_cases hdp : d = today ∧ p = platform
    · rw [if_pos ⟨hdp.1.symm, hdp.2.symm⟩, if_pos (by rw [hdp.1, hdp.2])]
    · rw [if_neg (fun hc => hdp ⟨hc.1.symm, hc.2.symm⟩),
        if_neg (fun hc => hdp (by injection hc with hc1 hc2; exact ⟨hc1, hc2⟩))]
  | query today user platform =>
    intro d p
    have h1 := SumInv_reset today st h
    show sumDaily (touch (reset_if_new_day today st).dailyUsage (today, platform, user)) d p
      = alookup (touch (reset_if_new_day today st).globalUsage (today, platform)) (d, p)
    rw [sumDaily_touch, alookup_touch, h1 d p]

theorem WF_SumInv_runOps (budgets : List (String × Nat)) (ops : List RLOp) (st : RLState)
    (hw : WF st) (h : SumInv st) :
    WF (runOps budgets st ops) ∧ SumInv (runOps budgets st ops) := by
  induction ops generalizing st with
  | nil => exact ⟨hw, h⟩
  | cons op ops ih =>
    exact ih (applyOp budgets st op) (WF_applyOp budgets st op hw)
      (SumInv_applyOp budgets st op hw h)

theorem applyOp_daily_ne_nil (budgets : List (String × Nat)) (st : RLState) (op : RLOp) :
    (applyOp budgets st op).dailyUsage ≠ [] := by
  cases op with
  | record today user platform count => exact bump_ne_nil _ _ _
  | query today user platform => exact touch_ne_nil _ _

theorem runOps_daily_nil_global_nil (budgets : List (String × Nat)) (ops : List RLOp)
    (st : RLState) (h : st.dailyUsage = [] → st.globalUsage = []) :
    (runOps budgets st ops).dailyUsage = [] → (runOps budgets st ops).globalUsage = [] := by
  induction ops generalizing st with
  | nil => exact h
  | cons op ops ih =>
    apply ih
    intro hnil
    cases op with
    | record today user platform count =>
      exact absurd hnil (bump_ne_nil _ _ _)
    | query today user platform =>
      exact absurd hnil (touch_ne_nil _ _)

/-- C6: starting from empty counters, after any interleaving of
`record_request` calls and `can_make_request` queries (each call made on
the UTC date current at call time), the sum of the per-tenant daily
counters of every `(date, platform)` equals that pair's global counter;
moreover a `can_make_request` query changes no counter value beyond the
lazy day-rollover reset it performs first (its `defaultdict` reads only
insert zero-valued entries). -/
theorem C6_tenant_sum_equals_global_counter :
    (∀ (budgets active : List (String × Nat)) (ops : List RLOp) (d p : String),
        sumDaily (runOps budgets (initState active) ops).dailyUsage d p
          = alookup (runOps budgets (initState active) ops).globalUsage (d, p))
    ∧ (∀ (budgets : List (String × Nat)) (today user platform : String) (st : RLState)
        (k : DKey) (g : GKey),
        alookup ((can_make_request budgets today user platform st).2).dailyUsage k
          = alookup (reset_if_new_day today st).dailyUsage k
        ∧ alookup ((can_make_request budgets today user platform st).2).globalUsage g
          = alookup (reset_if_new_day today st).globalUsage g) := by
  constructor
  · intro budgets active ops d p
    exact (WF_SumInv_runOps budgets ops (initState active)
      ⟨List.nodup_nil, List.nodup_nil⟩ (fun _ _ => rfl)).2 d p
  · intro budgets today user platform st k g
    exact ⟨alookup_touch _ _ _, alookup_touch _ _ _⟩

/-- If every stored daily entry is of a date other than `today` (and an
empty daily dict implies an empty global dict), `_reset_if_new_day`
clears both dicts. -/
theorem reset_clears_of_foreign (today : String) (st : RLState)
    (hnil : st.dailyUsage = [] → st.globalUsage = [])
    (h1 : ∀ e ∈ st.dailyUsage, e.1.1 ≠ today) :
    reset_if_new_day today st
      = { dailyUsage := [], globalUsage := [], activeUsers := st.activeUsers } := by
  unfold reset_if_new_day
  cases hd : st.dailyUsage with
  | nil =>
    have hg := hnil hd
    calc st = ⟨st.dailyUsage, st.globalUsage, st.activeUsers⟩ := rfl
    _ = ⟨[], [], st.activeUsers⟩ := by rw [hd, hg]
  | cons e rest =>
    obtain ⟨k, v⟩ := e
    have hne : k.1 ≠ today := h1 (k, v) (by rw [hd]; exact List.mem_cons_self _ _)
    show (if k.1 ≠ today
        then ({ dailyUsage := [], globalUsage := [], activeUsers := st.activeUsers } : RLState)
        else st)
      = { dailyUsage := [], globalUsage := [], activeUsers := st.activeUsers }
    rw [if_pos hne]

/-- C7: in any state reachable from empty counters, if no stored
counter entry carries date `d'` (i.e. the call is the first counter
access of day `d'`), then a `can_make_request` call on day `d'` reads
`user_used = 0` and `global_used = 0`, and afterwards every remaining
entry of both dicts carries date `d'` — all previous-day counters were
cleared by `_reset_if_new_day`'s sample-key check. -/
theorem C7_day_rollover_clears_counters
    (budgets active : List (String × Nat)) (ops : List RLOp)
    (dayNew user platform : String)
    (h1 : ∀ e ∈ (runOps budgets (initState active) ops).dailyUsage, e.1.1 ≠ dayNew)
    (_h2 : ∀ e ∈ (runOps budgets (initState active) ops).globalUsage, e.1.1 ≠ dayNew) :
    alookup ((can_make_request budgets dayNew user platform
        (runOps budgets (initState active) ops)).2).dailyUsage (dayNew, platform, user) = 0
    ∧ alookup ((can_make_request budgets dayNew user platform
        (runOps budgets (initState active) ops)).2).globalUsage (dayNew, platform) = 0
    ∧ (∀ e ∈ ((can_make_request budgets dayNew user platform
        (runOps budgets (initState active) ops)).2).dailyUsage, e.1.1 = dayNew)
    ∧ (∀ e ∈ ((can_make_request budgets dayNew user platform
        (runOps budgets (initState active) ops)).2).globalUsage, e.1.1 = dayNew) := by
  have hnil : (runOps budgets (initState active) ops).dailyUsage = []
      → (runOps budgets (initState active) ops).globalUsage = [] :=
    runOps_daily_nil_global_nil budgets ops (initState active) (fun _ => rfl)
  have hreset := reset_clears_of_foreign dayNew (runOps budgets (initState active) ops) hnil h1
  rw [can_make_request_snd, hreset]
  refine ⟨?_, ?_, ?_, ?_⟩
  · simp [touch, alookup_cons]
  · simp [touch, alookup_cons]
  · intro e he
    simp [touch] at he
    rw [he]
  · intro e he
    simp [touch] at he
    rw [he]

/-- Witness for C7: a concrete run on 2025-06-15 followed by the first
query of 2025-06-16 observes a zero tenant counter. -/
theorem C7_day_rollover_clears_counters_witness :
    (∀ e ∈ (runOps [("etsy", 100)] (initState [("etsy", 2)])
        [RLOp.record "2025-06-15" "A" "etsy" 3]).dailyUsage, e.1.1 ≠ "2025-06-16")
    ∧ alookup ((can_make_request [("etsy", 100)] "2025-06-16" "A" "etsy"
        (runOps [("etsy", 100)] (initState [("etsy", 2)])
          [RLOp.record "2025-06-15" "A" "etsy" 3])).2).dailyUsage
        ("2025-06-16", "etsy", "A") = 0 :=
  ⟨by decide,
    (C7_day_rollover_clears_counters [("etsy", 100)] [("etsy", 2)]
      [RLOp.record "2025-06-15" "A" "etsy" 3] "2025-06-16" "A" "etsy"
      (by decide) (by decide)).1⟩

/-- The global counter a `can_make_request` call reads is the
post-reset global counter (the `defaultdict` touch does not change it). -/
theorem can_make_request_global_read (budgets : List (String × Nat))
    (today user platform : String) (st : RLState) :
    alookup ((can_make_request budgets today user platform st).2).globalUsage (today, platform)
      = alookup (reset_if_new_day today st).globalUsage (today, platform) :=
  alookup_touch _ _ _

/-- C1: the per-tenant budget is
`floor((platform_daily_quota / max(active_tenants, 1)) * 0.8)`;
`can_make_request` answers `false` exactly when the global counter has
reached the platform quota or the tenant counter has reached the
per-tenant budget; and the concrete quota-100 two-tenant scenario
behaves as specified (budget 40; after A records 40, A is denied and B
allowed; after B records 60 more, global usage is 100 and every tenant
is denied). -/
theorem C1_rate_limit_admission :
    (∀ (budgets active : List (String × Nat)) (platform : String),
        per_user_budget budgets active platform
          = Nat.floor (((alookupD budgets platform 10000 : ℚ)
              / ((max (alookupD active platform 1) 1 : ℕ) : ℚ)) * 0.8))
    ∧ (∀ (budgets : List (String × Nat)) (today user platform : String) (st : RLState),
        (can_make_request budgets today user platform st).1 = false
          ↔ (alookupD budgets platform 10000
                ≤ alookup ((can_make_request budgets today user platform st).2).globalUsage
                  (today, platform)
             ∨ per_user_budget budgets st.activeUsers platform
                ≤ alookup ((can_make_request budgets today user platform st).2).dailyUsage
                  (today, platform, user)))
    ∧ per_user_budget [("etsy", 100)] [("etsy", 2)] "etsy" = 40
    ∧ (can_make_request [("etsy", 100)] "2025-06-15" "A" "etsy"
        (record_request "2025-06-15" "A" "etsy" 40 (initState [("etsy", 2)]))).1 = false
    ∧ (can_make_request [("etsy", 100)] "2025-06-15" "B" "etsy"
        (record_request "2025-06-15" "A" "etsy" 40 (initState [("etsy", 2)]))).1 = true
    ∧ alookup (record_request "2025-06-15" "B" "etsy" 60
        (record_request "2025-06-15" "A" "etsy" 40
          (initState [("etsy", 2)]))).globalUsage ("2025-06-15", "etsy") = 100
    ∧ (∀ t : String, (can_make_request [("etsy", 100)] "2025-06-15" t "etsy"
        (record_request "2025-06-15" "B" "etsy" 60
          (record_request "2025-06-15" "A" "etsy" 40
            (initState [("etsy", 2)])))).1 = false) := by
  have hiff : ∀ (budgets : List (String × Nat)) (today user platform : String) (st : RLState),
      (can_make_request budgets today user platform st).1 = false
        ↔ (alookupD budgets platform 10000
              ≤ alookup ((can_make_request budgets today user platform st).2).globalUsage
                (today, platform)
           ∨ per_user_budget budgets st.activeUsers platform
              ≤ alookup ((can_make_request budgets today user platform st).2).dailyUsage
                (today, platform, user)) := by
    intro budgets today user platform st
    show (if alookup (touch (reset_if_new_day today st).globalUsage (today, platform))
            (today, platform) ≥ alookupD budgets platform 10000 then false
          else if alookup (touch (reset_if_new_day today st).dailyUsage (today, platform, user))
            (today, platform, user)
              ≥ per_user_budget budgets (reset_if_new_day today st).activeUsers platform
            then false
          else true) = false
      ↔ (alookupD budgets platform 10000
            ≤ alookup (touch (reset_if_new_day today st).globalUsage (today, platform))
              (today, platform)
         ∨ per_user_budget budgets st.activeUsers platform
            ≤ alookup (touch (reset_if_new_day today st).dailyUsage (today, platform, user))
              (today, platform, user))
    rw [reset_activeUsers]
    by_cases hg : alookupD budgets platform 10000
        ≤ alookup (touch (reset_if_new_day today st).globalUsage (today, platform))
          (today, platform)
    · simp [hg, ge_iff_le]
    · by_cases hu : per_user_budget budgets st.activeUsers platform
          ≤ alookup (touch (reset_if_new_day today st).dailyUsage (today, platform, user))
            (today, platform, user)
      · simp [hg, hu, ge_iff_le]
      · simp [hg, hu, ge_iff_le]
  refine ⟨?_, hiff, by decide, by decide, by decide, by decide, ?_⟩
  · intro budgets active platform
    show (alookupD budgets platform 10000 * 4) / (max (alookupD active platform 1) 1 * 5)
      = Nat.floor (((alookupD budgets platform 10000 : ℚ)
          / ((max (alookupD active platform 1) 1 : ℕ) : ℚ)) * 0.8)
    rw [show (0.8 : ℚ) = 4 / 5 from by norm_num]
    have hcast : ((alookupD budgets platform 10000 : ℚ)
          / ((max (alookupD active platform 1) 1 : ℕ) : ℚ)) * (4 / 5)
        = (((alookupD budgets platform 10000 * 4 : ℕ)) : ℚ)
          / (((max (alookupD active platform 1) 1 * 5 : ℕ)) : ℚ) := by
      push_cast
      ring
    rw [hcast, Nat.floor_div_eq_div]
  · intro t
    rw [hiff]
    left
    rw [can_make_request_global_read]
    decide

/-! ## `retry.py`

`retry_request` is modelled as a fold over the sequence of outcomes the
underlying `client.request` produces, one per attempt.  Delays are exact
rationals (`float` in the source). -/

/-- `RETRYABLE_STATUS_CODES = {429, 500, 502, 503, 504}`. -/
def RETRYABLE_STATUS_CODES : List Nat := [429, 500, 502, 503, 504]

/-- The `Retry-After` header of a response: `none` models an absent or
empty header (falsy in Python), `some none` a present but unparsable
value (`float()` raises `ValueError`), `some (some v)` a present value
parsing to `v` seconds. -/
abbrev RetryAfter := Option (Option ℚ)

/-- One outcome of `client.request`: an HTTP response with a status
code and `Retry-After` header, or a raised transport error
(`httpx.TimeoutException` / `httpx.ConnectError`). -/
inductive Outcome where
  | resp (status : Nat) (retryAfter : RetryAfter)
  | timeout
  | connectError
deriving DecidableEq

/-- Result of `retry_request`: a returned response (tagged with the
attempt index at which it was returned), a re-raised transport error,
or the unreachable fall-through `RuntimeError`. -/
inductive RetryResult where
  | response (attempt status : Nat) (retryAfter : RetryAfter)
  | raisedTimeout (attempt : Nat)
  | raisedConnect (attempt : Nat)
  | runtimeError
deriving DecidableEq

/-- `_calculate_delay`: the `Retry-After` value clamped to `max_delay`
when the header is truthy and parses as a float, else
`min(base_delay * 2 ** attempt, max_delay)`. -/
def calculate_delay (retryAfter : RetryAfter) (attempt : Nat)
    (base_delay max_delay : ℚ) : ℚ :=
  match retryAfter with
  | some (some v) => min v max_delay
  | _ => min (base_delay * 2 ^ attempt) max_delay

/-- The `for attempt in range(max_retries + 1)` loop of `retry_request`,
starting at attempt index `attempt` and consuming one outcome per
attempt.  Returns the result together with the list of sleeps performed
(`time.sleep(delay)` calls, in order). -/
def retryGo (max_retries : Nat) (base_delay max_delay : ℚ) :
    Nat → List Outcome → RetryResult × List ℚ
  | _, [] => (.runtimeError, [])
  | attempt, .resp status retryAfter :: rest =>
    if status ∉ RETRYABLE_STATUS_CODES then (.response attempt status retryAfter, [])
    else if max_retries ≤ attempt then (.response attempt status retryAfter, [])
    else
      let d := calculate_delay retryAfter attempt base_delay max_delay
      let r := retryGo max_retries base_delay max_delay (attempt + 1) rest
      (r.1, d :: r.2)
  | attempt, .timeout :: rest =>
    if max_retries ≤ attempt then (.raisedTimeout attempt, [])
    else
      let d := min (base_delay * 2 ^ attempt) max_delay
      let r := retryGo max_retries base_delay max_delay (attempt + 1) rest
      (r.1, d :: r.2)
  | attempt, .connectError :: rest =>
    if max_retries ≤ attempt then (.raisedConnect attempt, [])
    else
      let d := min (base_delay * 2 ^ attempt) max_delay
      let r := retryGo max_retries base_delay max_delay (attempt + 1) rest
      (r.1, d :: r.2)

/-- `retry_request` (defaults in the source: `max_retries = 3`,
`base_delay = 1.0`, `max_delay = 60.0`). -/
def retry_request (max_retries : Nat) (base_delay max_delay : ℚ)
    (outcomes : List Outcome) : RetryResult × List ℚ :=
  retryGo max_retries base_delay max_delay 0 outcomes

/-- An outcome that is a response with a retryable status. -/
def isRetryableResp : Outcome → Bool
  | .resp s _ => decide (s ∈ RETRYABLE_STATUS_CODES)
  | _ => false

/-- An outcome that is a raised transport error. -/
def isTransportError : Outcome → Bool
  | .timeout => true
  | .connectError => true
  | _ => false

theorem retryGo_all_retryable (max_retries : Nat) (base_delay max_delay : ℚ) :
    ∀ (outs : List Outcome) (attempt status : Nat) (ra : RetryAfter),
      attempt + outs.length = max_retries + 1 →
      (∀ o ∈ outs, isRetryableResp o = true) →
      outs.getLast? = some (.resp status ra) →
      (retryGo max_retries base_delay max_delay attempt outs).1
        = .response max_retries status ra := by
  intro outs
  induction outs with
  | nil =>
    intro attempt status ra _ _ hlast
    exact absurd hlast (by simp)
  | cons o rest ih =>
    intro attempt status ra hlen hall hlast
    cases o with
    | timeout => exact absurd (hall _ (List.mem_cons_self _ _)) (by simp [isRetryableResp])
    | connectError => exact absurd (hall _ (List.mem_cons_self _ _)) (by simp [isRetryableResp])
    | resp s' ra' =>
      have hmem : s' ∈ RETRYABLE_STATUS_CODES := by
        have := hall _ (List.mem_cons_self _ _)
        simpa [isRetryableResp] using this
      cases rest with
      | nil =>
        have hatt : attempt = max_retries := by simp at hlen; omega
        have hsr : s' = status ∧ ra' = ra := by
          simp at hlast
          exact ⟨hlast.1, hlast.2⟩
        subst hatt
        simp only [retryGo]
        rw [if_neg (not_not_intro hmem), if_pos (Nat.le_refl _)]
        rw [hsr.1, hsr.2]
      | cons o2 rest2 =>
        have hlt : attempt < max_retries := by simp at hlen; omega
        simp only [retryGo]
        rw [if_neg (not_not_intro hmem), if_neg (Nat.not_le.mpr hlt)]
        exact ih (attempt + 1) status ra (by simp at hlen ⊢; omega)
          (fun o ho => hall o (List.mem_cons_of_mem _ ho))
          (by rw [← hlast]; exact List.getLast?_cons_cons.symm)

theorem retryGo_all_transport (max_retries : Nat) (base_delay max_delay : ℚ) :
    ∀ (outs : List Outcome) (attempt : Nat),
      attempt + outs.length = max_retries + 1 →
      (∀ o ∈ outs, isTransportError o = true) →
      (outs.getLast? = some .timeout →
        (retryGo max_retries base_delay max_delay attempt outs).1
          = .raisedTimeout max_retries)
      ∧ (outs.getLast? = some .connectError →
        (retryGo max_retries base_delay max_delay attempt outs).1
          = .raisedConnect max_retries) := by
  intro outs
  induction outs with
  | nil =>
    intro attempt _ _
    exact ⟨fun h => absurd h (by simp), fun h => absurd h (by simp)⟩
  | cons o rest ih =>
    intro attempt hlen hall
    cases rest with
    | nil =>
      have hatt : attempt = max_retries := by simp at hlen; omega
      subst hatt
      cases o with
      | resp s' ra' => exact absurd (hall _ (List.mem_cons_self _ _)) (by simp [isTransportError])
      | timeout =>
        constructor
        · intro _
          simp only [retryGo]
          rw [if_pos (Nat.le_refl _)]
        · intro hlast
          simp at hlast
      | connectError =>
        constructor
        · intro hlast
          simp at hlast
        · intro _
          simp only [retryGo]
          rw [if_pos (Nat.le_refl _)]
    | cons o2 rest2 =>
      have hlt : attempt < max_retries := by simp at hlen; omega
      have htail := ih (attempt + 1) (by simp at hlen ⊢; omega)
        (fun o ho => hall o (List.mem_cons_of_mem _ ho))
      have hlast2 : (o :: o2 :: rest2).getLast? = (o2 :: rest2).getLast? :=
        List.getLast?_cons_cons
      cases o with
      | resp s' ra' => exact absurd (hall _ (List.mem_cons_self _ _)) (by simp [isTransportError])
      | timeout =>
        constructor
        · intro hlast
          simp only [retryGo]
          rw [if_neg (Nat.not_le.mpr hlt)]
          exact htail.1 (by rw [← hlast, hlast2])
        · intro hlast
          simp only [retryGo]
          rw [if_neg (Nat.not_le.mpr hlt)]
          exact htail.2 (by rw [← hlast, hlast2])
      | connectError =>
        constructor
        · intro hlast
          simp only [retryGo]
          rw [if_neg (Nat.not_le.mpr hlt)]
          exact htail.1 (by rw [← hlast, hlast2])
        · intro hlast
          simp only [retryGo]
          rw [if_neg (Nat.not_le.mpr hlt)]
          exact htail.2 (by rw [← hlast, hlast2])

/-- C3: `retry_request` returns a non-retryable response immediately
with no sleep; on a retryable response with a retry remaining it sleeps
`_calculate_delay` (the parsed `Retry-After` clamped to `max_delay`
when present, else `min(base_delay * 2 ** attempt, max_delay)`) and
retries at the next attempt; when all `max_retries + 1` attempts yield
retryable responses it returns the last response (never raising); and
when all attempts raise transport errors it re-raises the last error. -/
theorem C3_retry_request_behavior :
    (∀ (mr : Nat) (base maxd : ℚ) (attempt status : Nat) (ra : RetryAfter)
        (rest : List Outcome),
        status ∉ RETRYABLE_STATUS_CODES →
        retryGo mr base maxd attempt (.resp status ra :: rest)
          = (.response attempt status ra, []))
    ∧ (∀ (mr : Nat) (base maxd : ℚ) (attempt status : Nat) (ra : RetryAfter)
        (rest : List Outcome),
        status ∈ RETRYABLE_STATUS_CODES → attempt < mr →
        retryGo mr base maxd attempt (.resp status ra :: rest)
          = ((retryGo mr base maxd (attempt + 1) rest).1,
             calculate_delay ra attempt base maxd
               :: (retryGo mr base maxd (attempt + 1) rest).2))
    ∧ (∀ (v : ℚ) (attempt : Nat) (base maxd : ℚ),
        calculate_delay (some (some v)) attempt base maxd = min v maxd)
    ∧ (∀ (ra : RetryAfter) (attempt : Nat) (base maxd : ℚ),
        (∀ v, ra ≠ some (some v)) →
        calculate_delay ra attempt base maxd = min (base * 2 ^ attempt) maxd)
    ∧ (∀ (mr : Nat) (base maxd : ℚ) (outs : List Outcome) (status : Nat) (ra : RetryAfter),
        outs.length = mr + 1 →
        (∀ o ∈ outs, isRetryableResp o = true) →
        outs.getLast? = some (.resp status ra) →
        (retry_request mr base maxd outs).1 = .response mr status ra)
    ∧ (∀ (mr : Nat) (base maxd : ℚ) (outs : List Outcome),
        outs.length = mr + 1 →
        (∀ o ∈ outs, isTransportError o = true) →
        (outs.getLast? = some .timeout →
          (retry_request mr base maxd outs).1 = .raisedTimeout mr)
        ∧ (outs.getLast? = some .connectError →
          (retry_request mr base maxd outs).1 = .raisedConnect mr)) := by
  refine ⟨?_, ?_, ?_, ?_, ?_, ?_⟩
  · intro mr base maxd attempt status ra rest h
    simp only [retryGo]
    rw [if_pos h]
  · intro mr base maxd attempt status ra rest hmem hlt
    simp only [retryGo]
    rw [if_neg (not_not_intro hmem), if_neg (Nat.not_le.mpr hlt)]
  · intro v attempt base maxd
    rfl
  · intro ra attempt base maxd h
    match ra with
    | none => rfl
    | some none => rfl
    | some (some v) => exact absurd rfl (h v)
  · intro mr base maxd outs status ra hlen hall hlast
    exact retryGo_all_retryable mr base maxd outs 0 status ra (by omega) hall hlast
  · intro mr base maxd outs hlen hall
    exact retryGo_all_transport mr base maxd outs 0 (by omega) hall

/-- Witness for C3: a 404 is returned immediately; two retryable 429/500
responses under `max_retries = 1` end with the last response returned;
two timeouts end with the timeout re-raised. -/
theorem C3_retry_request_behavior_witness :
    (404 ∉ RETRYABLE_STATUS_CODES)
    ∧ retryGo 3 1 60 0 [.resp 404 none] = (.response 0 404 none, [])
    ∧ (retry_request 1 1 60 [.resp 429 none, .resp 500 none]).1 = .response 1 500 none
    ∧ (retry_request 1 1 60 [.timeout, .timeout]).1 = .raisedTimeout 1 :=
  ⟨by decide,
    C3_retry_request_behavior.1 3 1 60 0 404 none [] (by decide),
    C3_retry_request_behavior.2.2.2.2.1 1 1 60 [.resp 429 none, .resp 500 none]
      500 none (by decide) (by decide) (by decide),
    (C3_retry_request_behavior.2.2.2.2.2 1 1 60 [.timeout, .timeout]
      (by decide) (by decide)).1 (by decide)⟩

/-! ## `etsy_sync_orders.py` — cursor tracking and `_to_cents`

Etsy `create_timestamp` values are epoch-second integers; `None` and
`0` are falsy in the source's `if created_ts and (...)` checks. -/

/-- Python truthiness of an optional integer (`None` and `0` falsy). -/
def truthyN : Option Nat → Bool
  | none => false
  | some n => decide (n ≠ 0)

/-- One iteration of the `run` loop's cursor tracking:
`if created_ts and (not latest_ts or created_ts > latest_ts):
latest_ts = created_ts`. -/
def etsyStep (latest created : Option Nat) : Option Nat :=
  match created with
  | none => latest
  | some c =>
    if c ≠ 0 ∧ (truthyN latest = false ∨ latest.getD 0 < c) then some c else latest

/-- `latest_ts` after the loop over all receipts (their
`create_timestamp` fields in order), starting from the loaded cursor
`min_created = cursor.get("orders_last_ts")`. -/
def etsyLatest (minCreated : Option Nat) (tss : List (Option Nat)) : Option Nat :=
  tss.foldl etsyStep minCreated

/-- The `orders_last_ts` value in the store after the run: the final
`if latest_ts:` guard writes `latest_ts` only when truthy, otherwise
the loaded value remains stored. -/
def etsyStoredCursor (minCreated : Option Nat) (tss : List (Option Nat)) : Option Nat :=
  if truthyN (etsyLatest minCreated tss) then etsyLatest minCreated tss else minCreated

/-- A record timestamp counts as observed by the cursor tracker only
when truthy. -/
def tfilter : Option Nat → Option Nat
  | none => none
  | some c => if c ≠ 0 then some c else none

/-- Max of two optional numbers, with `none` as the neutral element. -/
def omax : Option Nat → Option Nat → Option Nat
  | none, b => b
  | a, none => a
  | some a, some b => some (max a b)

/-- The largest truthy record timestamp in the run, if any. -/
def observedMax (tss : List (Option Nat)) : Option Nat :=
  tss.foldl (fun acc t => omax acc (tfilter t)) none

theorem omax_none_right (a : Option Nat) : omax a none = a := by
  cases a <;> rfl

theorem omax_none_left (b : Option Nat) : omax none b = b := by
  cases b <;> rfl

theorem omax_assoc (a b c : Option Nat) : omax (omax a b) c = omax a (omax b c) := by
  cases a <;> cases b <;> cases c <;> simp [omax, Nat.max_assoc]

theorem etsyStep_eq_omax (m t : Option Nat) : etsyStep m t = omax m (tfilter t) := by
  cases t with
  | none => cases m <;> rfl
  | some c =>
    by_cases hc : c = 0
    · subst hc
      cases m <;> simp [etsyStep, tfilter, omax]
    · cases m with
      | none => simp [etsyStep, tfilter, omax, hc]
      | some l =>
        by_cases hl : l = 0
        · subst hl
          simp [etsyStep, tfilter, omax, hc, truthyN, Nat.zero_max]
        · by_cases hlt : l < c
          · simp [etsyStep, tfilter, omax, hc, truthyN, hl, hlt,
              Nat.max_eq_right (Nat.le_of_lt hlt)]
          · simp [etsyStep, tfilter, omax, hc, truthyN, hl, hlt,
              Nat.max_eq_left (Nat.le_of_not_lt hlt)]

theorem foldl_omax_shift (ts : List (Option Nat)) :
    ∀ a : Option Nat,
      ts.foldl (fun acc t => omax acc (tfilter t)) a = omax a (observedMax ts) := by
  induction ts with
  | nil =>
    intro a
    exact (omax_none_right a).symm
  | cons t ts ih =>
    intro a
    have hobs : observedMax (t :: ts) = omax (tfilter t) (observedMax ts) := by
      show ts.foldl (fun acc t => omax acc (tfilter t)) (omax none (tfilter t))
        = omax (tfilter t) (observedMax ts)
      rw [omax_none_left, ih (tfilter t)]
    show ts.foldl (fun acc t => omax acc (tfilter t)) (omax a (tfilter t))
      = omax a (observedMax (t :: ts))
    rw [ih (omax a (tfilter t)), omax_assoc, hobs]

theorem observedMax_cons (t : Option Nat) (ts : List (Option Nat)) :
    observedMax (t :: ts) = omax (tfilter t) (observedMax ts) := by
  show ts.foldl (fun acc t => omax acc (tfilter t)) (omax none (tfilter t))
    = omax (tfilter t) (observedMax ts)
  rw [omax_none_left, foldl_omax_shift ts (tfilter t)]

theorem etsyLatest_eq_omax (ts : List (Option Nat)) :
    ∀ m : Option Nat, etsyLatest m ts = omax m (observedMax ts) := by
  induction ts with
  | nil =>
    intro m
    exact (omax_none_right m).symm
  | cons t ts ih =>
    intro m
    show etsyLatest (etsyStep m t) ts = omax m (observedMax (t :: ts))
    rw [ih (etsyStep m t), etsyStep_eq_omax, omax_assoc, observedMax_cons]

theorem tfilter_ne_some_zero (t : Option Nat) : tfilter t ≠ some 0 := by
  cases t with
  | none => simp [tfilter]
  | some c =>
    by_cases hc : c = 0
    · simp [tfilter, hc]
    · simp [tfilter, hc]

theorem observedMax_ne_some_zero (ts : List (Option Nat)) : observedMax ts ≠ some 0 := by
  suffices h : ∀ a : Option Nat, a ≠ some 0 →
      ts.foldl (fun acc t => omax acc (tfilter t)) a ≠ some 0 by
    exact h none (by simp)
  induction ts with
  | nil => exact fun a ha => ha
  | cons t ts ih =>
    intro a ha
    apply ih
    have ht := tfilter_ne_some_zero t
    cases a with
    | none =>
      show omax none (tfilter t) ≠ some 0
      rw [omax_none_left]
      exact ht
    | some x =>
      cases hft : tfilter t with
      | none =>
        show omax (some x) (tfilter t) ≠ some 0
        rw [hft, omax_none_right]
        exact ha
      | some c =>
        show omax (some x) (tfilter t) ≠ some 0
        rw [hft]
        show some (max x c) ≠ some 0
        intro hmax
        have hxc : max x c = 0 := by simpa using hmax
        have hc : c = 0 := (Nat.max_eq_zero_iff.mp hxc).2
        exact ht (by rw [hft, hc])

theorem etsyStoredCursor_eq_omax (m : Option Nat) (ts : List (Option Nat)) :
    etsyStoredCursor m ts = omax m (observedMax ts) := by
  unfold etsyStoredCursor
  by_cases htr : truthyN (etsyLatest m ts) = true
  · rw [if_pos htr]
    exact etsyLatest_eq_omax ts m
  · rw [if_neg htr]
    have hl := etsyLatest_eq_omax ts m
    cases hlat : etsyLatest m ts with
    | none =>
      rw [hlat] at hl
      cases m with
      | none => exact hl
      | some a =>
        exfalso
        cases hobs : observedMax ts with
        | none => rw [hobs, omax_none_right] at hl; exact Option.noConfusion hl
        | some b => rw [hobs] at hl; exact Option.noConfusion hl
    | some n =>
      have hn : n = 0 := by
        rw [hlat] at htr
        simpa [truthyN] using htr
      subst hn
      rw [hlat] at hl
      cases hobs : observedMax ts with
      | none =>
        rw [omax_none_right]
      | some b =>
        exfalso
        rw [hobs] at hl
        cases m with
        | none =>
          have hb : b = 0 := by simpa [omax] using hl.symm
          exact observedMax_ne_some_zero ts (by rw [hobs, hb])
        | some a =>
          have hmax : max a b = 0 := by simpa [omax] using hl.symm
          have hb : b = 0 := (Nat.max_eq_zero_iff.mp hmax).2
          exact observedMax_ne_some_zero ts (by rw [hobs, hb])

/-! ## `printify_sync_orders.py` — cursor tracking

Printify timestamps are ISO-8601 strings compared lexicographically;
`None` and `""` are falsy. -/

/-- Python truthiness of an optional string (`None` and `""` falsy). -/
def truthyS : Option String → Bool
  | none => false
  | some s => decide (s ≠ "")

/-- `order.get("updated_at") or order.get("created_at", "")`. -/
def printifyOrderTs (updated created : Option String) : String :=
  match updated with
  | some s => if s ≠ "" then s else created.getD ""
  | none => created.getD ""

/-- `newest_ts` update for one order:
`if order_ts and (not newest_ts or order_ts > newest_ts):
newest_ts = order_ts`. -/
def printifyStep (newest : Option String) (ts : String) : Option String :=
  if ts ≠ "" ∧ (truthyS newest = false ∨ newest.getD "" < ts) then some ts else newest

/-- `newest_ts` after processing a list of order timestamps, starting
from the loaded `printify_orders_last_ts`.  Every periodic checkpoint
save and the final save persist such a fold of some prefix of the
processed orders. -/
def printifyNewest (lastTs : Option String) (tss : List String) : Option String :=
  tss.foldl printifyStep lastTs

theorem empty_le_string (s : String) : "" ≤ s :=
  String.le_iff_toList_le.mpr List.nil_le

theorem printifyNewest_mono (tss : List String) :
    ∀ v : String, ∃ w, printifyNewest (some v) tss = some w ∧ v ≤ w := by
  induction tss with
  | nil => exact fun v => ⟨v, rfl, le_refl v⟩
  | cons t ts ih =>
    intro v
    show ∃ w, printifyNewest (printifyStep (some v) t) ts = some w ∧ v ≤ w
    unfold printifyStep
    by_cases hcond : t ≠ "" ∧ (truthyS (some v) = false ∨ (some v).getD "" < t)
    · rw [if_pos hcond]
      obtain ⟨w, hw, hvw⟩ := ih t
      refine ⟨w, hw, le_trans ?_ hvw⟩
      rcases hcond.2 with h | h
      · have hv : v = "" := by simpa [truthyS] using h
        rw [hv]
        exact empty_le_string t
      · exact le_of_lt (by simpa using h)
    · rw [if_neg hcond]
      exact ih v

/-- Counterexample to C2: with the loaded cursor `orders_last_ts = 10`
and a single receipt of `create_timestamp = 5`, the commerce-A orders
run stores `10`, not the maximum record timestamp observed (`5`). -/
theorem C2_cursor_equals_observed_max_counterexample :
    etsyStoredCursor (some 10) [some 5] = some 10
    ∧ observedMax [some 5] = some 5
    ∧ ¬ (etsyStoredCursor (some 10) [some 5] = observedMax [some 5]) := by
  refine ⟨by decide, by decide, by decide⟩

/-- C2 (amended): an orders sync run never persists a cursor older than
the loaded one, and the cursor stored at the end of the run equals the
maximum of the loaded value and the largest truthy record timestamp
observed — not the observed maximum alone.  For commerce-A orders this
is exact (`etsyStoredCursor = omax loaded (observedMax run)`); for
fulfillment-F orders every checkpoint save and the final save persist a
`newest_ts` fold that is `≥` the loaded value. -/
theorem C2_cursor_monotonic_amended :
    (∀ (minCreated : Option Nat) (tss : List (Option Nat)),
        etsyStoredCursor minCreated tss = omax minCreated (observedMax tss))
    ∧ (∀ (v : Nat) (tss : List (Option Nat)),
        ∃ w, etsyStoredCursor (some v) tss = some w ∧ v ≤ w)
    ∧ (∀ (v : String) (tss : List String),
        ∃ w, printifyNewest (some v) tss = some w ∧ v ≤ w) := by
  refine ⟨etsyStoredCursor_eq_omax, ?_, fun v tss => printifyNewest_mono tss v⟩
  intro v tss
  rw [etsyStoredCursor_eq_omax]
  cases hobs : observedMax tss with
  | none => exact ⟨v, by rw [omax_none_right], le_refl v⟩
  | some b => exact ⟨max v b, rfl, le_max_left v b⟩

/-! ## `_to_cents` (`etsy_sync_orders.py`) -/

/-- An Etsy money object: optional integer `amount` and `divisor`
fields.  The source defaults are `amount = 0` and `divisor = 100`. -/
structure EtsyMoney where
  amount : Option Int
  divisor : Option Int
deriving DecidableEq

/-- `_to_cents`: `int(amount * 100)` when the divisor is 1, else
`int(amount * 100 / divisor)` — float division truncated toward zero by
`int()`, i.e. `Int.tdiv` on the exact integers. -/
def to_cents (m : EtsyMoney) : Int :=
  let amount := m.amount.getD 0
  let divisor := m.divisor.getD 100
  if divisor = 1 then amount * 100
  else Int.tdiv (amount * 100) divisor

/-- Counterexample to C8: `_to_cents({amount: 5, divisor: 3})` is
`int(500 / 3) = 166`, while `round(5 * 100 / 3) = 167`: the function
truncates, it does not round. -/
theorem C8_to_cents_round_counterexample :
    to_cents ⟨some 5, some 3⟩ = 166
    ∧ round ((5 * 100 : ℚ) / 3) = 167
    ∧ to_cents ⟨some 5, some 3⟩ ≠ round ((5 * 100 : ℚ) / 3) := by
  have h2 : round ((5 * 100 : ℚ) / 3) = 167 := by
    rw [round_eq]
    have ha : (5 * 100 : ℚ) / 3 + 1 / 2 = 1003 / 6 := by norm_num
    rw [ha]
    have hb : ⌊(1003 / 6 : ℚ)⌋ = 167 := by
      rw [Int.floor_eq_iff]
      norm_num
    rw [hb]
  refine ⟨by decide, h2, ?_⟩
  rw [h2]
  decide

/-- C8 (amended): `_to_cents` returns `amount * 100 / divisor`
truncated toward zero (for non-negative amounts and positive divisors,
the floor of the exact quotient); when the divisor is 1 it returns
`amount * 100`; and the spec's concrete values hold:
`to_cents({amount: 25, divisor: 1}) = 2500`,
`to_cents({amount: 2500, divisor: 100}) = 2500`, `to_cents({}) = 0`. -/
theorem C8_to_cents_truncates_amended :
    (∀ (m : EtsyMoney) (a d : Int), m.amount = some a → m.divisor = some d →
        to_cents m = if d = 1 then a * 100 else Int.tdiv (a * 100) d)
    ∧ (∀ (m : EtsyMoney) (a d : Int), m.amount = some a → m.divisor = some d →
        0 ≤ a → 0 < d → to_cents m = ⌊((a : ℚ) * 100) / (d : ℚ)⌋)
    ∧ to_cents ⟨some 25, some 1⟩ = 2500
    ∧ to_cents ⟨some 2500, some 100⟩ = 2500
    ∧ to_cents ⟨none, none⟩ = 0 := by
  refine ⟨?_, ?_, by decide, by decide, by decide⟩
  · intro m a d ham hdm
    unfold to_cents
    rw [ham, hdm]
    rfl
  · intro m a d ham hdm ha hd
    unfold to_cents
    rw [ham, hdm]
    show (if d = 1 then a * 100 else Int.tdiv (a * 100) d) = ⌊((a : ℚ) * 100) / (d : ℚ)⌋
    by_cases h1 : d = 1
    · subst h1
      rw [if_pos rfl]
      rw [show ((a : ℚ) * 100) / ((1 : ℤ) : ℚ) = ((a * 100 : ℤ) : ℚ) from by push_cast; ring]
      rw [Int.floor_intCast]
    · rw [if_neg h1]
      rw [Int.tdiv_eq_ediv (by positivity) hd.le]
      have hdn : ((d.toNat : ℤ)) = d := Int.toNat_of_nonneg hd.le
      have hdq : ((d.toNat : ℕ) : ℚ) = (d : ℚ) := by exact_mod_cast hdn
      have hq : ((a : ℚ) * 100) / (d : ℚ) = ((a * 100 : ℤ) : ℚ) / ((d.toNat : ℕ) : ℚ) := by
        rw [hdq]
        push_cast
        ring
      rw [hq, Rat.floor_intCast_div_natCast, hdn]

/-! ## `_map_printify_status` (`printify_sync_orders.py`) -/

/-- The `mapping` dict of `_map_printify_status`, in source order. -/
def PRINTIFY_STATUS_MAP : List (String × String) :=
  [("pending", "unfulfilled"),
   ("sending-to-production", "in_production"),
   ("in-production", "in_production"),
   ("shipping", "shipped"),
   ("on-hold", "unfulfilled"),
   ("fulfilled", "delivered"),
   ("canceled", "cancelled")]

/-- `_map_printify_status`: `mapping.get(status, "unfulfilled")`. -/
def map_printify_status (status : String) : String :=
  match PRINTIFY_STATUS_MAP.find? (fun e => decide (e.1 = status)) with
  | some e => e.2
  | none => "unfulfilled"

/-- C9: the fulfillment-F status mapping sends `pending` and `on-hold`
to `unfulfilled`, `sending-to-production` and `in-production` to
`in_production`, `shipping` to `shipped`, `fulfilled` to `delivered`,
`canceled` to `cancelled`, and every other string to `unfulfilled`. -/
theorem C9_printify_status_mapping :
    map_printify_status "pending" = "unfulfilled"
    ∧ map_printify_status "on-hold" = "unfulfilled"
    ∧ map_printify_status "sending-to-production" = "in_production"
    ∧ map_printify_status "in-production" = "in_production"
    ∧ map_printify_status "shipping" = "shipped"
    ∧ map_printify_status "fulfilled" = "delivered"
    ∧ map_printify_status "canceled" = "cancelled"
    ∧ (∀ s : String, s ∉ PRINTIFY_STATUS_MAP.map Prod.fst →
        map_printify_status s = "unfulfilled") := by
  refine ⟨by decide, by decide, by decide, by decide, by decide, by decide, by decide, ?_⟩
  intro s hs
  unfold map_printify_status
  cases hfind : PRINTIFY_STATUS_MAP.find? (fun e => decide (e.1 = s)) with
  | none => rfl
  | some e =>
    exfalso
    have hmem := List.mem_of_find?_eq_some hfind
    have hp := List.find?_some (p := fun e : String × String => decide (e.1 = s)) hfind
    simp only [decide_eq_true_eq] at hp
    exact hs (hp ▸ List.mem_map_of_mem Prod.fst hmem)

/-- Witness for C9: `xyz` is not a key of the mapping and maps to
`unfulfilled`. -/
theorem C9_printify_status_mapping_witness :
    ("xyz" ∉ PRINTIFY_STATUS_MAP.map Prod.fst)
    ∧ map_printify_status "xyz" = "unfulfilled" :=
  ⟨by decide, C9_printify_status_mapping.2.2.2.2.2.2.2 "xyz" (by decide)⟩

/-- Witness for C8: a money object with amount 7 and divisor 2 hits the
floor characterisation. -/
theorem C8_to_cents_truncates_amended_witness :
    (⟨some 7, some 2⟩ : EtsyMoney).amount = some 7
    ∧ to_cents ⟨some 7, some 2⟩ = ⌊((7 : ℤ) : ℚ) * 100 / ((2 : ℤ) : ℚ)⌋ :=
  ⟨rfl, C8_to_cents_truncates_amended.2.1 ⟨some 7, some 2⟩ 7 2 rfl rfl
    (by norm_num) (by norm_num)⟩

/-! ## `modal_app._schedule_next` -/

/-- A `sync_jobs` row (the fields `_schedule_next` reads and writes). -/
structure SyncJob where
  user_id : String
  job_type : String
  status : String
  scheduled_at : Nat
  priority : Nat
deriving DecidableEq

/-- Modelled from the spec: the `sync_jobs` table schema is not under
`src/` — the insert in `_schedule_next` does not set `status`, and spec
section 4.5 ("inserts a new row with `status=queued`") fixes the column
default, so the inserted row's status is `"queued"`. -/
def INSERTED_STATUS : String := "queued"

/-- Python's `pat in s` substring test. -/
def strContains (s pat : String) : Bool := decide ((s.splitOn pat).length ≠ 1)

/-- The cadence dict of `_schedule_next`: the base `intervals`,
replaced for listings/products/customers job types and then for
payments job types (minutes). -/
def schedule_intervals (job_type : String) : List (String × Nat) :=
  let base := [("free", 30), ("starter", 15), ("growth", 5), ("pro", 2)]
  let base := if strContains job_type "listings" || strContains job_type "products"
      || strContains job_type "customers" then
    [("free", 60), ("starter", 30), ("growth", 30), ("pro", 15)] else base
  if strContains job_type "payments" then
    [("free", 60), ("starter", 30), ("growth", 15), ("pro", 10)] else base

/-- The row `_schedule_next` inserts: the tenant's plan (default
`"free"`) selects the cadence interval (default 30); the row is
scheduled `interval` minutes from `now` with priority 1 for `pro`
plans.  `profiles` maps `user_id` to `plan`; `now` is in minutes. -/
def schedule_next_row (profiles : List (String × String))
    (user_id job_type : String) (now : Nat) : SyncJob :=
  let plan := ((profiles.find? (fun e => decide (e.1 = user_id))).map
    (fun e => e.2)).getD "free"
  let interval := alookupD (schedule_intervals job_type) plan 30
  { user_id := user_id, job_type := job_type, status := INSERTED_STATUS,
    scheduled_at := now + interval,
    priority := if plan = "pro" then 1 else 0 }

/-- `_schedule_next(db, user_id, job_type)`: return the table unchanged
when a queued row with the same `(user_id, job_type)` already exists,
else insert `schedule_next_row`. -/
def schedule_next (db : List SyncJob) (profiles : List (String × String))
    (user_id job_type : String) (now : Nat) : List SyncJob :=
  if db.any (fun j => decide (j.user_id = user_id ∧ j.job_type = job_type
      ∧ j.status = "queued")) then db
  else db ++ [schedule_next_row profiles user_id job_type now]

/-- Number of queued `sync_jobs` rows for one `(user_id, job_type)`. -/
def countQueued (db : List SyncJob) (user_id job_type : String) : Nat :=
  (db.filter (fun j => decide (j.user_id = user_id ∧ j.job_type = job_type
    ∧ j.status = "queued"))).length

theorem countQueued_append (db1 db2 : List SyncJob) (u jt : String) :
    countQueued (db1 ++ db2) u jt = countQueued db1 u jt + countQueued db2 u jt := by
  unfold countQueued
  rw [List.filter_append, List.length_append]

theorem countQueued_singleton_le_one (j : SyncJob) (u jt : String) :
    countQueued [j] u jt ≤ 1 := by
  unfold countQueued
  by_cases hc : (j.user_id = u ∧ j.job_type = jt ∧ j.status = "queued")
  · rw [List.filter_cons_of_pos (by simpa using hc)]
    simp
  · rw [List.filter_cons_of_neg (by simpa using hc)]
    simp

theorem countQueued_singleton_ne (j : SyncJob) (u jt : String)
    (h : ¬ (j.user_id = u ∧ j.job_type = jt)) : countQueued [j] u jt = 0 := by
  unfold countQueued
  rw [List.filter_cons_of_neg]
  · rfl
  · simp only [decide_eq_true_eq]
    intro hc
    exact h ⟨hc.1, hc.2.1⟩

theorem schedule_next_row_user_id (profiles : List (String × String))
    (user_id job_type : String) (now : Nat) :
    (schedule_next_row profiles user_id job_type now).user_id = user_id := rfl

theorem schedule_next_row_job_type (profiles : List (String × String))
    (user_id job_type : String) (now : Nat) :
    (schedule_next_row profiles user_id job_type now).job_type = job_type := rfl

/-- C4: when a queued row with the same `(tenant, job_type)` exists,
`_schedule_next` inserts nothing; consequently it preserves the
invariant that every `(tenant, job_type)` has at most one queued row. -/
theorem C4_schedule_next_single_queued :
    (∀ (db : List SyncJob) (profiles : List (String × String))
        (user_id job_type : String) (now : Nat),
        (∃ j ∈ db, j.user_id = user_id ∧ j.job_type = job_type ∧ j.status = "queued") →
        schedule_next db profiles user_id job_type now = db)
    ∧ (∀ (db : List SyncJob) (profiles : List (String × String))
        (user_id job_type : String) (now : Nat) (u jt : String),
        countQueued db u jt ≤ 1 →
        countQueued (schedule_next db profiles user_id job_type now) u jt ≤ 1) := by
  constructor
  · intro db profiles user_id job_type now ⟨j, hj, h1, h2, h3⟩
    unfold schedule_next
    rw [if_pos (List.any_eq_true.mpr ⟨j, hj, by simp [h1, h2, h3]⟩)]
  · intro db profiles user_id job_type now u jt hle
    unfold schedule_next
    split
    · exact hle
    · rename_i hany
      rw [countQueued_append]
      by_cases hmatch : u = user_id ∧ jt = job_type
      · have hzero : countQueued db u jt = 0 := by
          unfold countQueued
          rw [List.length_eq_zero, List.filter_eq_nil_iff]
          intro j hj
          simp only [decide_eq_true_eq, not_and]
          intro h1 h2 h3
          exact absurd (List.any_eq_true.mpr ⟨j, hj,
            by simp [h1, h2, h3, hmatch.1, hmatch.2]⟩) hany
        have hone := countQueued_singleton_le_one
          (schedule_next_row profiles user_id job_type now) u jt
        omega
      · have hzero : countQueued [schedule_next_row profiles user_id job_type now] u jt = 0 := by
          apply countQueued_singleton_ne
          rw [schedule_next_row_user_id, schedule_next_row_job_type]
          intro hc
          exact hmatch ⟨hc.1.symm, hc.2.symm⟩
        omega

/-- Witness for C4: given a queued `(T, etsy_orders)` row,
`_schedule_next` leaves the table unchanged. -/
theorem C4_schedule_next_single_queued_witness :
    (∃ j ∈ [(⟨"T", "etsy_orders", "queued", 0, 0⟩ : SyncJob)],
        j.user_id = "T" ∧ j.job_type = "etsy_orders" ∧ j.status = "queued")
    ∧ schedule_next [⟨"T", "etsy_orders", "queued", 0, 0⟩]
        [("T", "free")] "T" "etsy_orders" 5
      = [⟨"T", "etsy_orders", "queued", 0, 0⟩] :=
  ⟨by decide,
    C4_schedule_next_single_queued.1 [⟨"T", "etsy_orders", "queued", 0, 0⟩]
      [("T", "free")] "T" "etsy_orders" 5 (by decide)⟩

/-! ## `token_manager.py`

`is_token_expired` is modelled with `datetime.fromisoformat` as a
parser parameter (a failing parse is the caught `ValueError` /
`TypeError`).  The refresh flows are modelled with datetimes as UTC
epoch seconds, the `isoformat`/`fromisoformat` round trip being the
identity on that representation. -/

/-- A parsed `datetime.fromisoformat` result: the wall-clock reading in
seconds and the UTC offset of its `tzinfo` (`none` = naive datetime). -/
structure ParsedDT where
  wallclock : Int
  tzOffset : Option Int
deriving DecidableEq

/-- The UTC instant of a parsed datetime after the source's
`if exp.tzinfo is None: exp = exp.replace(tzinfo=timezone.utc)`: a
naive wall clock is taken as UTC, i.e. offset 0. -/
def utcInstant (d : ParsedDT) : Int := d.wallclock - d.tzOffset.getD 0

/-- `is_token_expired(expires_at)`: `True` when `expires_at` is `None`;
`True` when `fromisoformat` raises (modelled as the parser returning
`none`); else `datetime.now(timezone.utc) >= exp` with a naive `exp`
first reinterpreted as UTC. -/
def is_token_expired (fromiso : String → Option ParsedDT) (now : Int) :
    Option String → Bool
  | none => true
  | some s =>
    match fromiso s with
    | none => true
    | some d => decide (now ≥ utcInstant d)

/-- C10: `is_token_expired` is total — every input yields a Boolean
(the exception branch of the source is the caught-parse case, mapped to
`True`): it returns `True` on `None`, `True` on any string the
ISO-8601 parser rejects, and for a naive (timezone-less) parse it
compares as if the wall clock were UTC — identically to the same
wall clock with an explicit UTC (offset-0) timezone. -/
theorem C10_is_token_expired_total :
    (∀ (fromiso : String → Option ParsedDT) (now : Int) (e : Option String),
        is_token_expired fromiso now e = true ∨ is_token_expired fromiso now e = false)
    ∧ (∀ (fromiso : String → Option ParsedDT) (now : Int),
        is_token_expired fromiso now none = true)
    ∧ (∀ (fromiso : String → Option ParsedDT) (now : Int) (s : String),
        fromiso s = none → is_token_expired fromiso now (some s) = true)
    ∧ (∀ (fromiso : String → Option ParsedDT) (now : Int) (s : String) (w : Int),
        fromiso s = some ⟨w, none⟩ →
        is_token_expired fromiso now (some s) = decide (now ≥ w))
    ∧ (∀ (fromiso fromisoUtc : String → Option ParsedDT) (now : Int) (s : String) (w : Int),
        fromiso s = some ⟨w, none⟩ → fromisoUtc s = some ⟨w, some 0⟩ →
        is_token_expired fromiso now (some s)
          = is_token_expired fromisoUtc now (some s)) := by
  refine ⟨?_, ?_, ?_, ?_, ?_⟩
  · intro fromiso now e
    cases h : is_token_expired fromiso now e
    · right; rfl
    · left; rfl
  · intro fromiso now
    rfl
  · intro fromiso now s h
    show (match fromiso s with
      | none => true
      | some d => decide (now ≥ utcInstant d)) = true
    rw [h]
  · intro fromiso now s w h
    show (match fromiso s with
      | none => true
      | some d => decide (now ≥ utcInstant d)) = decide (now ≥ w)
    rw [h]
    show decide (now ≥ utcInstant ⟨w, none⟩) = decide (now ≥ w)
    norm_num [utcInstant]
  · intro fromiso fromisoUtc now s w h1 h2
    show (match fromiso s with
      | none => true
      | some d => decide (now ≥ utcInstant d))
      = (match fromisoUtc s with
        | none => true
        | some d => decide (now ≥ utcInstant d))
    rw [h1, h2]
    show decide (now ≥ utcInstant ⟨w, none⟩) = decide (now ≥ utcInstant ⟨w, some 0⟩)
    norm_num [utcInstant]

/-- Witness for C10: an always-failing parser yields `True`; a parser
producing the naive wall clock `50` compares against `now = 100` as
UTC. -/
theorem C10_is_token_expired_total_witness :
    ((fun _ : String => (none : Option ParsedDT)) "x" = none)
    ∧ is_token_expired (fun _ => none) 100 (some "x") = true
    ∧ ((fun _ : String => some (⟨50, none⟩ : ParsedDT)) "x" = some ⟨50, none⟩)
    ∧ is_token_expired (fun _ => some ⟨50, none⟩) 100 (some "x")
      = decide ((100 : Int) ≥ 50) :=
  ⟨rfl,
    C10_is_token_expired_total.2.2.1 (fun _ => none) 100 "x" rfl,
    rfl,
    C10_is_token_expired_total.2.2.2.1 (fun _ => some ⟨50, none⟩) 100 "x" 50 rfl⟩

/-- The decrypted token row a refresh flow works on (the relevant
output of `load_tokens` / input of `store_tokens`): plaintext access
token, optional refresh token, optional expiry (UTC epoch seconds). -/
structure TokenRow where
  access : String
  refresh : Option String
  expiresAt : Option Int
deriving DecidableEq

/-- `is_token_expired` specialised to the integer-time model used by
the refresh flows: expired when the expiry is missing or
`now >= expires_at` (every stored expiry is timezone-aware UTC). -/
def is_token_expiredI (now : Int) : Option Int → Bool
  | none => true
  | some t => decide (now ≥ t)

/-- Errors raised by the refresh flows (`RuntimeError` variants and the
uncaught `KeyError` on a missing JSON key). -/
inductive RefreshError where
  | noRefreshToken
  | noTokens
  | noShopDomain
  | httpError (status : Nat)
  | keyError
deriving DecidableEq

/-- The Etsy refresh response: HTTP status plus the JSON fields read. -/
structure EtsyRefreshResp where
  status : Nat
  access_token : Option String
  refresh_token : Option String
  expires_in : Option Int
deriving DecidableEq

/-- `refresh_etsy_token`: requires stored tokens with a refresh token;
raises on a non-200 response; reads `access_token` and `refresh_token`
(`KeyError` when either is missing), takes
`expires_in = data.get("expires_in", 3600)`, computes
`expires_at = now + expires_in`, stores the new row (rotated refresh
token included) and returns it. -/
def refresh_etsy_token (stored : Option TokenRow) (now : Int)
    (resp : EtsyRefreshResp) : Except RefreshError TokenRow :=
  match stored with
  | none => .error .noRefreshToken
  | some t =>
    match t.refresh with
    | none => .error .noRefreshToken
    | some _ =>
      if resp.status ≠ 200 then .error (.httpError resp.status)
      else
        match resp.access_token, resp.refresh_token with
        | some newAccess, some newRefresh =>
          .ok ⟨newAccess, some newRefresh, some (now + resp.expires_in.getD 3600)⟩
        | _, _ => .error .keyError

/-- The Shopify refresh response: HTTP status plus the JSON fields.
The source never reads `refresh_token` from this response; the field is
carried to state that a rotated value would be ignored. -/
structure ShopifyRefreshResp where
  status : Nat
  access_token : Option String
  refresh_token : Option String
  expires_at : Option Int
deriving DecidableEq

/-- `refresh_shopify_token`: requires stored tokens; when a truthy
refresh token is stored and the stored expiry has passed, requires a
truthy `shop_domain`, posts the refresh, raises on non-200, reads
`access_token` (`KeyError` when missing) and `expires_at`
(`data.get`, may be absent), stores `(new access, original refresh,
response expires_at)` and returns it; otherwise returns the stored
tokens unchanged. -/
def refresh_shopify_token (stored : Option TokenRow) (shop_domain : Option String)
    (now : Int) (resp : ShopifyRefreshResp) : Except RefreshError TokenRow :=
  match stored with
  | none => .error .noTokens
  | some t =>
    if truthyS t.refresh && is_token_expiredI now t.expiresAt then
      if truthyS shop_domain = false then .error .noShopDomain
      else if resp.status ≠ 200 then .error (.httpError resp.status)
      else
        match resp.access_token with
        | some newAccess => .ok ⟨newAccess, t.refresh, resp.expires_at⟩
        | none => .error .keyError
    else .ok t

/-- Counterexample to C5: (a) an Etsy refresh succeeding with
`expires_in = 0` returns `expires_at = now`, not strictly greater; (b) a
Shopify refresh whose response rotates the refresh token to `"nr2"`
stores the original `"r"` — the rotated token is ignored. -/
theorem C5_token_refresh_counterexample :
    refresh_etsy_token (some ⟨"old", some "r", some 0⟩) 100
        ⟨200, some "na", some "nr", some 0⟩
      = .ok ⟨"na", some "nr", some 100⟩
    ∧ ¬ ((100 : Int) < 100)
    ∧ refresh_shopify_token (some ⟨"old", some "r", some 0⟩) (some "shop.example") 100
        ⟨200, some "na", some "nr2", some 200⟩
      = .ok ⟨"na", some "r", some 200⟩
    ∧ (some "r" : Option String) ≠ some "nr2" := by
  refine ⟨by rfl, by decide, by rfl, by decide⟩

/-- C5 (amended): a successful Etsy refresh stores the rotated refresh
token from the response and returns
`expires_at = now + expires_in` (default 3600), which is strictly
greater than `now` exactly when `expires_in` is positive; a successful
Shopify refresh always preserves the original refresh token (a rotated
token in the response is ignored, and an omitted one trivially so), and
either returns the stored row unchanged or passes the response's
`expires_at` through verbatim. -/
theorem C5_token_refresh_amended :
    (∀ (stored : Option TokenRow) (now : Int) (resp : EtsyRefreshResp) (r : TokenRow),
        refresh_etsy_token stored now resp = .ok r →
        r.refresh = resp.refresh_token
        ∧ r.expiresAt = some (now + resp.expires_in.getD 3600)
        ∧ (0 < resp.expires_in.getD 3600 → ∃ t, r.expiresAt = some t ∧ now < t))
    ∧ (∀ (stored : Option TokenRow) (dom : Option String) (now : Int)
        (resp : ShopifyRefreshResp) (r t0 : TokenRow),
        stored = some t0 →
        refresh_shopify_token stored dom now resp = .ok r →
        r.refresh = t0.refresh ∧ (r = t0 ∨ r.expiresAt = resp.expires_at)) := by
  constructor
  · intro stored now resp r h
    unfold refresh_etsy_token at h
    split at h
    · exact Except.noConfusion h
    · split at h
      · exact Except.noConfusion h
      · split at h
        · exact Except.noConfusion h
        · split at h
          · rename_i newAccess newRefresh heq1 heq2
            rw [heq2]
            have hr : r = ⟨newAccess, some newRefresh, some (now + resp.expires_in.getD 3600)⟩ := by
              injection h with h'
              exact h'.symm
            subst hr
            refine ⟨rfl, rfl, fun hpos => ⟨now + resp.expires_in.getD 3600, rfl, by omega⟩⟩
          · exact Except.noConfusion h
  · intro stored dom now resp r t0 hst h
    subst hst
    unfold refresh_shopify_token at h
    split at h
    · rename_i heq
      exact absurd heq (by simp)
    · rename_i t' heq
      injection heq with heq'
      subst heq'
      split at h
      · split at h
        · exact Except.noConfusion h
        · split at h
          · exact Except.noConfusion h
          · split at h
            · rename_i newAccess heq2
              have hr : r = ⟨newAccess, t0.refresh, resp.expires_at⟩ := by
                injection h with h'
                exact h'.symm
              subst hr
              exact ⟨rfl, Or.inr rfl⟩
            · exact Except.noConfusion h
      · have hr : r = t0 := by
          injection h with h'
          exact h'.symm
        subst hr
        exact ⟨rfl, Or.inl rfl⟩

/-- Witness for C5: a concrete successful Etsy refresh with
`expires_in = 3600` rotates the refresh token and expires in the
future; a concrete Shopify refresh preserves the original token. -/
theorem C5_token_refresh_amended_witness :
    refresh_etsy_token (some ⟨"old", some "r", some 0⟩) 100
        ⟨200, some "na", some "nr", some 3600⟩
      = .ok ⟨"na", some "nr", some 3700⟩
    ∧ (⟨"na", some "nr", some 3700⟩ : TokenRow).refresh
        = (⟨200, some "na", some "nr", some 3600⟩ : EtsyRefreshResp).refresh_token
    ∧ (refresh_shopify_token (some ⟨"old", some "r", some 0⟩) (some "shop.example") 100
        ⟨200, some "na", some "nr2", some 200⟩ = .ok ⟨"na", some "r", some 200⟩
      → (⟨"na", some "r", some 200⟩ : TokenRow).refresh
          = (⟨"old", some "r", some 0⟩ : TokenRow).refresh) :=
  ⟨by rfl,
    (C5_token_refresh_amended.1 (some ⟨"old", some "r", some 0⟩) 100
      ⟨200, some "na", some "nr", some 3600⟩ ⟨"na", some "nr", some 3700⟩ (by rfl)).1,
    fun h => (C5_token_refresh_amended.2 (some ⟨"old", some "r", some 0⟩)
      (some "shop.example") 100 ⟨200, some "na", some "nr2", some 200⟩
      ⟨"na", some "r", some 200⟩ ⟨"old", some "r", some 0⟩ rfl h).1⟩

end Etc2
